import Mathlib

/-!
Verification of the session engine of `watchd` (src/watchd.py) against its
natural-language specification.  The Python code is shallowly embedded:
Python strings become `List Char`, mutable objects become explicit state
records, the select/read/waitpid environment of the session event loop
becomes an explicit input trace, and uncaught Python exceptions become an
explicit `crashed` outcome.  The wall-clock `timestamp` field of events is
the only field omitted from the embedding (it is nondeterministic and no
claim refers to it).
-/

namespace Watchd

/-- Python strings are modelled as lists of characters. -/
abbrev Str := List Char

/-- The `Event` dataclass of watchd.py (the wall-clock `timestamp` field is
omitted, see the module comment). -/
structure Event where
  event_type : Str
  message : Str
  priority : Str
  tags : List Str
  context : Str
  command : Str
  deriving DecidableEq, Repr

/-- A compiled pattern: the regex source string (`pattern.pattern`) together
with its match predicate on a line (`pattern.search(line)` viewed as a
Boolean). -/
structure Pat where
  src : Str
  search : Str → Bool

/-- Word characters, the regex class `\w` (ASCII range; the ten default
patterns contain only ASCII). -/
def isWordChar (c : Char) : Bool := c.isAlphanum || c = '_'

/-- Does `pat` occur verbatim in `line` starting at position `i`? -/
def matchAt (pat line : Str) (i : Nat) : Bool :=
  (line.drop i).take pat.length == pat

/-- Whole-word occurrence at `i`: the regex `\b...\b` anchoring for a literal
that starts and ends with a word character. -/
def wordMatchAt (pat line : Str) (i : Nat) : Bool :=
  matchAt pat line i
    && (i == 0 || !(isWordChar (line.getD (i - 1) ' ')))
    && (i + pat.length == line.length || !(isWordChar (line.getD (i + pat.length) ' ')))

/-- Case-insensitive whole-word search: the semantics of
`re.compile(r'\b<literal>\b', re.IGNORECASE).search(line) is not None`
for the literal default patterns (ASCII case folding). -/
def wordSearch (pat line : Str) : Bool :=
  let l := line.map Char.toLower
  (List.range (l.length + 1)).any (fun i => wordMatchAt pat l i)

/-- Build the compiled form of one entry of `DEFAULT_PATTERNS`; `w` is the
literal between the two `\b` anchors. -/
def mkWordPat (w : String) : Pat :=
  { src := ("\\b" ++ w ++ "\\b").data
    search := fun line => wordSearch w.data line }

/-- The ten `DEFAULT_PATTERNS` of watchd.py. -/
def defaultPats : List Pat :=
  [mkWordPat "error", mkWordPat "failed", mkWordPat "failure",
   mkWordPat "traceback", mkWordPat "panic", mkWordPat "fatal",
   mkWordPat "exception", mkWordPat "segmentation fault",
   mkWordPat "killed", mkWordPat "oom"]

namespace PatternDetector

/-- Mutable state of `PatternDetector`: the completed lines (`self.lines`),
the partial-line buffer (`self.partial`, renamed `pbuf` here), and the set of
already-reported line indices (`self.seen`, a Python set modelled as a list
without consulting order). -/
structure DetState where
  lines : List Str
  pbuf : Str
  seen : List Nat
  deriving DecidableEq, Repr

/-- A fresh detector: `PatternDetector.__init__`. -/
def initDet : DetState := ⟨[], [], []⟩

/-- Python `'\n'.join(ls)`. -/
def joinNL : List Str → Str
  | [] => []
  | [x] => x
  | x :: y :: rest => x ++ '\n' :: joinNL (y :: rest)

/-- Python slice `l[a:b]` on the line list. -/
def slice (l : List Str) (a b : Nat) : List Str := (l.take b).drop a

/-- The `for pattern in self.patterns` loop body of `PatternDetector.feed`,
acting on the freshly appended `line` at index `idx` of `lines`.  Returns the
updated reported set and the events this line appends.  Note `idx - 2` on
`Nat` realises the source's `max(0, idx - 2)`. -/
def scanPatterns (cmd : Str) (lines : List Str) (idx : Nat) (line : Str) :
    List Pat → List Nat → List Nat × List Event
  | [], seen => (seen, [])
  | p :: ps, seen =>
    if p.search line && !(seen.contains idx) then
      let ev : Event :=
        { event_type := "pattern_match".data
          message := "Matched: ".data ++ p.src
          priority := "high".data
          tags := ["warning".data]
          context := joinNL (slice lines (idx - 2) (idx + 1))
          command := cmd }
      let r := scanPatterns cmd lines idx line ps (idx :: seen)
      (r.1, ev :: r.2)
    else scanPatterns cmd lines idx line ps seen

/-- Processing of one completed line inside the `while` loop of
`PatternDetector.feed`: append the line, set `idx = len(self.lines) - 1`,
scan the patterns, then apply the bounded-history truncation
(`self.lines = self.lines[-250:]` once the list exceeds 500 entries). -/
def handleLine (pats : List Pat) (cmd : Str) (lines : List Str)
    (seen : List Nat) (line : Str) : List Str × List Nat × List Event :=
  let lines' := lines ++ [line]
  let idx := lines'.length - 1
  let r := scanPatterns cmd lines' idx line pats seen
  let lines'' := if lines'.length > 500 then lines'.drop (lines'.length - 250) else lines'
  (lines'', r.1, r.2)

/-- Split a buffer at its first newline: the source's
`line, self.partial = self.partial.split('\n', 1)` (defined when a newline is
present). -/
def breakNL : Str → Option (Str × Str)
  | [] => none
  | c :: cs =>
    if c = '\n' then some ([], cs)
    else
      match breakNL cs with
      | none => none
      | some (l, r) => some (c :: l, r)

/-- Loop state while `feed` drains the buffer. -/
structure DetLoop where
  lines : List Str
  seen : List Nat
  pbuf : Str
  events : List Event
  deriving DecidableEq, Repr

/-- The `while '\n' in self.partial` loop of `feed`.  `fuel` bounds the number
of iterations; each iteration strictly shrinks the buffer, so fuel
`pbuf.length` is always enough (see `procLoop_fuel`). -/
def procLoop (pats : List Pat) (cmd : Str) : Nat → DetLoop → DetLoop
  | 0, s => s
  | fuel + 1, s =>
    match breakNL s.pbuf with
    | none => s
    | some (line, rest) =>
      let h := handleLine pats cmd s.lines s.seen line
      procLoop pats cmd fuel
        { lines := h.1, seen := h.2.1, pbuf := rest, events := s.events ++ h.2.2 }

/-- `PatternDetector.feed(data, command)`: append the chunk to the buffer and
drain every completed line, collecting the emitted events in order. -/
def feed (pats : List Pat) (st : DetState) (data cmd : Str) : DetState × List Event :=
  let buf := st.pbuf ++ data
  let r := procLoop pats cmd buf.length
    { lines := st.lines, seen := st.seen, pbuf := buf, events := [] }
  (⟨r.lines, r.pbuf, r.seen⟩, r.events)

/-- Feeding a list of chunks in sequence, concatenating the event lists:
successive calls to `feed`. -/
def feedChunks (pats : List Pat) (st : DetState) (cmd : Str) :
    List Str → DetState × List Event
  | [] => (st, [])
  | c :: cs =>
    let r1 := feed pats st c cmd
    let r2 := feedChunks pats r1.1 cmd cs
    (r2.1, r1.2 ++ r2.2)

/-! Basic lemmas about the buffer-splitting step. -/

theorem breakNL_len (p : Str) : ∀ l r, breakNL p = some (l, r) → r.length < p.length := by
  induction p with
  | nil => intro l r h; simp [breakNL] at h
  | cons c cs ih =>
    intro l r h
    by_cases hc : c = '\n'
    · simp [breakNL, hc] at h
      obtain ⟨-, h2⟩ := h
      subst h2
      simp [List.length_cons]
    · cases hb : breakNL cs with
      | none => simp [breakNL, hc, hb] at h
      | some pr =>
        obtain ⟨l', r'⟩ := pr
        simp [breakNL, hc, hb] at h
        obtain ⟨-, h2⟩ := h
        subst h2
        have := ih l' r' hb
        simp only [List.length_cons]
        omega

theorem breakNL_append (p : Str) (b : Str) :
    ∀ l r, breakNL p = some (l, r) → breakNL (p ++ b) = some (l, r ++ b) := by
  induction p with
  | nil => intro l r h; simp [breakNL] at h
  | cons c cs ih =>
    intro l r h
    by_cases hc : c = '\n'
    · simp [breakNL, hc] at h
      obtain ⟨h1, h2⟩ := h
      subst h1
      subst h2
      simp [breakNL, hc]
    · cases hb : breakNL cs with
      | none => simp [breakNL, hc, hb] at h
      | some pr =>
        obtain ⟨l', r'⟩ := pr
        simp [breakNL, hc, hb] at h
        obtain ⟨h1, h2⟩ := h
        subst h1
        subst h2
        simp [breakNL, hc, ih l' r' hb]

/-! Lemmas about the draining loop of `feed`. -/

theorem procLoop_noNL (pats : List Pat) (cmd : Str) (n : Nat) (s : DetLoop)
    (h : breakNL s.pbuf = none) : procLoop pats cmd n s = s := by
  cases n <;> simp [procLoop, h]

theorem procLoop_fuel (pats : List Pat) (cmd : Str) :
    ∀ n m (s : DetLoop), s.pbuf.length ≤ n → s.pbuf.length ≤ m →
      procLoop pats cmd n s = procLoop pats cmd m s := by
  intro n
  induction n with
  | zero =>
    intro m s h1 _
    have hp : s.pbuf = [] := List.length_eq_zero.mp (Nat.le_zero.mp h1)
    rw [procLoop_noNL pats cmd _ s (by rw [hp]; rfl),
        procLoop_noNL pats cmd _ s (by rw [hp]; rfl)]
  | succ n ih =>
    intro m s h1 h2
    cases hb : breakNL s.pbuf with
    | none => rw [procLoop_noNL pats cmd _ s hb, procLoop_noNL pats cmd _ s hb]
    | some pr =>
      obtain ⟨line, rest⟩ := pr
      have hlt := breakNL_len s.pbuf line rest hb
      cases m with
      | zero =>
        have hp : s.pbuf = [] := List.length_eq_zero.mp (Nat.le_zero.mp h2)
        rw [hp] at hb; simp [breakNL] at hb
      | succ m =>
        simp only [procLoop, hb]
        exact ih m _ (by simpa using Nat.lt_succ_iff.mp (lt_of_lt_of_le hlt h1))
          (by simpa using Nat.lt_succ_iff.mp (lt_of_lt_of_le hlt h2))

theorem procLoop_events (pats : List Pat) (cmd : Str) :
    ∀ n (lines : List Str) (seen : List Nat) (p : Str) (ev : List Event),
      procLoop pats cmd n ⟨lines, seen, p, ev⟩ =
        ⟨(procLoop pats cmd n ⟨lines, seen, p, []⟩).lines,
         (procLoop pats cmd n ⟨lines, seen, p, []⟩).seen,
         (procLoop pats cmd n ⟨lines, seen, p, []⟩).pbuf,
         ev ++ (procLoop pats cmd n ⟨lines, seen, p, []⟩).events⟩ := by
  intro n
  induction n with
  | zero => intro lines seen p ev; simp [procLoop]
  | succ n ih =>
    intro lines seen p ev
    cases hb : breakNL p with
    | none => simp [procLoop, hb]
    | some pr =>
      obtain ⟨line, rest⟩ := pr
      simp only [procLoop, hb, List.nil_append]
      set L1 := (handleLine pats cmd lines seen line).1 with hL1
      set S1 := (handleLine pats cmd lines seen line).2.1 with hS1
      set dlt := (handleLine pats cmd lines seen line).2.2 with hdlt
      rw [ih L1 S1 rest (ev ++ dlt), ih L1 S1 rest dlt]
      simp [List.append_assoc]

theorem procLoop_pbuf (pats : List Pat) (cmd : Str) :
    ∀ n (s : DetLoop), s.pbuf.length ≤ n →
      breakNL (procLoop pats cmd n s).pbuf = none := by
  intro n
  induction n with
  | zero =>
    intro s h1
    have hp : s.pbuf = [] := List.length_eq_zero.mp (Nat.le_zero.mp h1)
    rw [procLoop_noNL pats cmd _ s (by rw [hp]; rfl), hp]
    rfl
  | succ n ih =>
    intro s h1
    cases hb : breakNL s.pbuf with
    | none => rw [procLoop_noNL pats cmd _ s hb]; exact hb
    | some pr =>
      obtain ⟨line, rest⟩ := pr
      have hlt := breakNL_len s.pbuf line rest hb
      simp only [procLoop, hb]
      exact ih _ (by simpa using Nat.lt_succ_iff.mp (lt_of_lt_of_le hlt h1))

/-- Splitting the drained buffer: running the loop on `p ++ b` is running it
on `p`, then running it on the leftover buffer extended by `b`, with the event
lists concatenated. -/
theorem procLoop_split (pats : List Pat) (cmd : Str) :
    ∀ n (lines : List Str) (seen : List Nat) (p b : Str) (m r : DetLoop),
      (p ++ b).length ≤ n →
      m = procLoop pats cmd p.length ⟨lines, seen, p, []⟩ →
      r = procLoop pats cmd (m.pbuf ++ b).length ⟨m.lines, m.seen, m.pbuf ++ b, []⟩ →
      procLoop pats cmd n ⟨lines, seen, p ++ b, []⟩ =
        ⟨r.lines, r.seen, r.pbuf, m.events ++ r.events⟩ := by
  intro n
  induction n with
  | zero =>
    intro lines seen p b m r hn hm hr
    have hp : p = [] := by
      have := List.length_append p b ▸ Nat.le_zero.mp hn
      exact List.length_eq_zero.mp (by omega)
    have hb : b = [] := by
      have := List.length_append p b ▸ Nat.le_zero.mp hn
      exact List.length_eq_zero.mp (by omega)
    subst hp; subst hb
    simp only [List.length_nil, List.nil_append, procLoop] at hm
    subst hm
    simp only [List.append_nil, List.length_nil, procLoop] at hr
    subst hr
    simp [procLoop]
  | succ n ih =>
    intro lines seen p b m r hn hm hr
    cases hb : breakNL p with
    | none =>
      have hm' : m = ⟨lines, seen, p, []⟩ := by
        rw [hm, procLoop_noNL pats cmd _ _ hb]
      subst hm'
      simp only at hr
      have hL : procLoop pats cmd (n + 1) ⟨lines, seen, p ++ b, []⟩ =
          procLoop pats cmd (p ++ b).length ⟨lines, seen, p ++ b, []⟩ :=
        procLoop_fuel pats cmd _ _ _ (by simpa using hn) le_rfl
      rw [hL, ← hr]
      simp
    | some pr =>
      obtain ⟨l, rest⟩ := pr
      cases p with
      | nil => simp [breakNL] at hb
      | cons c cs =>
        have hlt := breakNL_len (c :: cs) l rest hb
        have hab : breakNL ((c :: cs) ++ b) = some (l, rest ++ b) :=
          breakNL_append (c :: cs) b l rest hb
        -- unfold the left run one step
        rw [show (c :: cs) ++ b = c :: (cs ++ b) from rfl]
        simp only [procLoop, show breakNL (c :: (cs ++ b)) = some (l, rest ++ b) from hab,
          List.nil_append]
        -- unfold the defining equation of m one step
        rw [List.length_cons] at hm
        simp only [procLoop, hb, List.nil_append] at hm
        -- name the pieces of the processed line
        set L1 := (handleLine pats cmd lines seen l).1 with hL1
        set S1 := (handleLine pats cmd lines seen l).2.1 with hS1
        set dlt := (handleLine pats cmd lines seen l).2.2 with hdlt
        rw [procLoop_events pats cmd n L1 S1 (rest ++ b) dlt]
        rw [procLoop_fuel pats cmd cs.length rest.length ⟨L1, S1, rest, dlt⟩
              (by simpa using Nat.lt_succ_iff.mp hlt) (by simp),
            procLoop_events pats cmd rest.length L1 S1 rest dlt] at hm
        set m' := procLoop pats cmd rest.length ⟨L1, S1, rest, ([] : List Event)⟩ with hm'def
        -- hm : m = ⟨m'.lines, m'.seen, m'.pbuf, dlt ++ m'.events⟩
        have hrr : r = procLoop pats cmd (m'.pbuf ++ b).length
            ⟨m'.lines, m'.seen, m'.pbuf ++ b, []⟩ := by
          rw [hr, hm]
        have hrec := ih L1 S1 rest b m' r
          (by
            have h1 := List.length_append rest b
            have h2 := List.length_append (c :: cs) b
            have h3 : (c :: cs).length = cs.length + 1 := List.length_cons c cs
            omega)
          hm'def hrr
        rw [hrec, hm]
        simp [List.append_assoc]

/-! Lemmas about the per-line pattern scan. -/

theorem scanPatterns_seen (cmd : Str) (L : List Str) (idx : Nat) (line : Str) :
    ∀ (pats : List Pat) (seen : List Nat), seen.contains idx = true →
      scanPatterns cmd L idx line pats seen = (seen, []) := by
  intro pats
  induction pats with
  | nil => intro seen _; rfl
  | cons p ps ih =>
    intro seen h
    simp only [scanPatterns, h, Bool.not_true, Bool.and_false, if_false]
    exact ih seen h

theorem scanPatterns_len (cmd : Str) (L : List Str) (idx : Nat) (line : Str) :
    ∀ (pats : List Pat) (seen : List Nat),
      (scanPatterns cmd L idx line pats seen).2.length ≤ 1 := by
  intro pats
  induction pats with
  | nil => intro seen; simp [scanPatterns]
  | cons p ps ih =>
    intro seen
    by_cases h : (p.search line && !(seen.contains idx)) = true
    · simp only [scanPatterns, h, if_true]
      rw [scanPatterns_seen cmd L idx line ps (idx :: seen) (by simp)]
      simp
    · simp only [scanPatterns, h, if_false]
      exact ih seen

theorem scanPatterns_ctx (cmd : Str) (L : List Str) (idx : Nat) (line : Str) :
    ∀ (pats : List Pat) (seen : List Nat),
      ∀ e ∈ (scanPatterns cmd L idx line pats seen).2,
        e.context = joinNL (slice L (idx - 2) (idx + 1)) := by
  intro pats
  induction pats with
  | nil => intro seen e he; simp [scanPatterns] at he
  | cons p ps ih =>
    intro seen e he
    by_cases h : (p.search line && !(seen.contains idx)) = true
    · simp only [scanPatterns, h, if_true, List.mem_cons] at he
      rcases he with he | he
      · rw [he]
      · exact ih (idx :: seen) e he
    · simp only [scanPatterns, h, if_false] at he
      exact ih seen e he

/-- Chunk concatenation: feeding `a ++ b` equals feeding `a` and then `b`,
concatenating the event lists. -/
theorem feed_append (pats : List Pat) (st : DetState) (a b cmd : Str) :
    feed pats st (a ++ b) cmd =
      ((feed pats (feed pats st a cmd).1 b cmd).1,
       (feed pats st a cmd).2 ++ (feed pats (feed pats st a cmd).1 b cmd).2) := by
  simp only [feed]
  rw [show st.pbuf ++ (a ++ b) = (st.pbuf ++ a) ++ b from (List.append_assoc _ _ _).symm]
  rw [procLoop_split pats cmd ((st.pbuf ++ a) ++ b).length st.lines st.seen
        (st.pbuf ++ a) b
        (procLoop pats cmd (st.pbuf ++ a).length ⟨st.lines, st.seen, st.pbuf ++ a, []⟩)
        _ le_rfl rfl rfl]

/-- The leftover buffer after a `feed` never contains a newline. -/
theorem feed_pbuf (pats : List Pat) (st : DetState) (data cmd : Str) :
    breakNL (feed pats st data cmd).1.pbuf = none := by
  simp only [feed]
  exact procLoop_pbuf pats cmd _ _ le_rfl

end PatternDetector

open PatternDetector in
/-- Claim C7 (confirmed): feeding an input string to the detector one
character at a time, via successive `feed` calls, produces the same final
detector state and the same event sequence (kind, message, context, priority,
tags and command all equal) as feeding the whole string in one `feed` call.
The hypothesis states that the partial-line buffer holds no newline, which is
true of every detector state the program can reach (a `feed` always drains
complete lines, see `feed_pbuf`). -/
theorem claim_C7 (pats : List Pat) (cmd : Str) (st : DetState) (s : Str)
    (h : breakNL st.pbuf = none) :
    feedChunks pats st cmd (s.map fun c => [c]) = feed pats st s cmd := by
  induction s generalizing st with
  | nil =>
    simp only [List.map_nil, feedChunks, feed, List.append_nil]
    rw [procLoop_noNL pats cmd _ _ h]
  | cons c cs ih =>
    simp only [List.map_cons, feedChunks]
    rw [ih (feed pats st [c] cmd).1 (feed_pbuf pats st [c] cmd)]
    rw [show c :: cs = [c] ++ cs from rfl, feed_append pats st [c] cs cmd]

open PatternDetector in
/-- Witness for C7 at a concrete input: a three-line chunk containing a
pattern match, fed to a fresh detector. -/
theorem claim_C7_witness :
    feedChunks defaultPats initDet "cmd".data
        ("ok\nboom error\ntail".data.map fun c => [c]) =
      feed defaultPats initDet "ok\nboom error\ntail".data "cmd".data :=
  claim_C7 defaultPats "cmd".data initDet "ok\nboom error\ntail".data rfl

open PatternDetector in
/-- Claim C8 (confirmed): one completed line yields at most one
`pattern_match` event, no matter how many of the configured patterns match
it, and an emitted event's context is the newline-join of the lines from
index `max(0, idx - 2)` to `idx` inclusive (`idx` being the index the line
just received, i.e. the length of the previous line list; `Nat` subtraction
realises the `max(0, ...)`). -/
theorem claim_C8 (pats : List Pat) (cmd : Str) (lines : List Str)
    (seen : List Nat) (line : Str) :
    (handleLine pats cmd lines seen line).2.2.length ≤ 1 ∧
      ∀ e ∈ (handleLine pats cmd lines seen line).2.2,
        e.context = joinNL (slice (lines ++ [line]) (lines.length - 2) (lines.length + 1)) := by
  have hidx : (lines ++ [line]).length - 1 = lines.length := by simp
  constructor
  · simp only [handleLine]
    exact scanPatterns_len cmd (lines ++ [line]) ((lines ++ [line]).length - 1) line pats seen
  · intro e he
    simp only [handleLine] at he
    have := scanPatterns_ctx cmd (lines ++ [line]) ((lines ++ [line]).length - 1) line
      pats seen e he
    rw [this, hidx]

open PatternDetector in
/-- Witness for C8: the single line `error` fed to an empty detector
produces exactly one event whose context is the line itself. -/
theorem claim_C8_witness :
    ((handleLine defaultPats "cmd".data [] [] "error".data).2.2.length ≤ 1) ∧
      ({ event_type := "pattern_match".data,
         message := "Matched: \\berror\\b".data,
         priority := "high".data, tags := ["warning".data],
         context := "error".data, command := "cmd".data } : Event).context =
        joinNL (slice ([] ++ ["error".data]) (List.length ([] : List Str) - 2)
          (List.length ([] : List Str) + 1)) :=
  ⟨(claim_C8 defaultPats "cmd".data [] [] "error".data).1,
   (claim_C8 defaultPats "cmd".data [] [] "error".data).2 _ (by decide)⟩

open PatternDetector in
/-- Claim C3, amended part (corrected): a freshly completed line always
receives index `lines.length` (the current length of the line list), not an
index larger than every reported one; whenever that index is already present
in the reported set — which happens after a truncation, since truncation
shrinks the list back to 250 entries while the set keeps indices up to
500 — the line is suppressed: the reported set is unchanged and no event is
emitted even if a pattern matches the line. -/
theorem claim_C3 (pats : List Pat) (cmd : Str) (lines : List Str)
    (seen : List Nat) (line : Str) (h : lines.length ∈ seen) :
    (handleLine pats cmd lines seen line).2.1 = seen ∧
      (handleLine pats cmd lines seen line).2.2 = [] := by
  have hidx : (lines ++ [line]).length - 1 = lines.length := by simp
  have hc : seen.contains ((lines ++ [line]).length - 1) = true := by
    rw [hidx]; simpa using h
  simp only [handleLine]
  rw [scanPatterns_seen cmd (lines ++ [line]) ((lines ++ [line]).length - 1) line
        pats seen hc]
  exact ⟨rfl, rfl⟩

open PatternDetector in
/-- Witness for the amended C3 at a concrete input: index 1 is already in the
reported set, so the matching line `error` is suppressed. -/
theorem claim_C3_witness :
    (handleLine defaultPats "cmd".data [['o']] [1] "error".data).2.2 = [] := by
  have h := claim_C3 defaultPats "cmd".data [['o']] [1] "error".data (by decide)
  exact h.2

/-!
Concrete counterexample run for claim C3.  We feed 300 empty lines, one
`error` line (reported with index 300), and 250 further empty lines.  While
processing these the line list reaches 501 entries and is truncated to the
most recent 250, after which the list grows back to length 300 — so the next
completed line receives index 300, which is still in the reported set.  A
second `error` line is then suppressed even though it matches a pattern.
The run is evaluated in segments so that each kernel evaluation stays small.
-/

open PatternDetector

def emptyLines (n : Nat) : List Str := List.replicate n []

def c3cmd : Str := "cmd".data

def nl100 : Str := List.replicate 100 '\n'

/-- Detector state after `k` empty lines. -/
def c3stA (k : Nat) : DetState := ⟨emptyLines k, [], []⟩

/-- Detector state after 300 empty lines, the reported `error` line, and `m`
further empty lines (before truncation). -/
def c3stB (m : Nat) : DetState := ⟨emptyLines 300 ++ "error".data :: emptyLines m, [], [300]⟩

/-- Detector state after the truncation: 49 empty lines survive in front of
the `error` line, followed by `m` empty lines. -/
def c3stC (m : Nat) : DetState := ⟨emptyLines 49 ++ "error".data :: emptyLines m, [], [300]⟩

/-- The single event of the counterexample run, reported for the first
`error` line at index 300. -/
def c3ev : Event :=
  { event_type := "pattern_match".data, message := "Matched: \\berror\\b".data,
    priority := "high".data, tags := ["warning".data],
    context := '\n' :: '\n' :: "error".data, command := c3cmd }

/-- Final state of the counterexample run: the second `error` line was
appended but not reported. -/
def c3final : DetState :=
  ⟨emptyLines 49 ++ "error".data :: (emptyLines 250 ++ ["error".data]), [], [300]⟩

/-- The chunk sequence of the counterexample run, without its final chunk. -/
def c3pre : List Str :=
  [nl100, nl100, nl100, "error\n".data, nl100, nl100, List.replicate 50 '\n']

set_option maxRecDepth 20000 in
theorem c3segA1 : feed defaultPats (c3stA 0) nl100 c3cmd = (c3stA 100, []) := by decide

set_option maxRecDepth 20000 in
theorem c3segA2 : feed defaultPats (c3stA 100) nl100 c3cmd = (c3stA 200, []) := by decide

set_option maxRecDepth 20000 in
theorem c3segA3 : feed defaultPats (c3stA 200) nl100 c3cmd = (c3stA 300, []) := by decide

set_option maxRecDepth 20000 in
theorem c3segErr : feed defaultPats (c3stA 300) "error\n".data c3cmd = (c3stB 0, [c3ev]) := by
  decide

set_option maxRecDepth 20000 in
theorem c3segB1 : feed defaultPats (c3stB 0) nl100 c3cmd = (c3stB 100, []) := by decide

set_option maxRecDepth 20000 in
theorem c3segB2 : feed defaultPats (c3stB 100) nl100 c3cmd = (c3stC 200, []) := by decide

set_option maxRecDepth 20000 in
theorem c3segC1 :
    feed defaultPats (c3stC 200) (List.replicate 50 '\n') c3cmd = (c3stC 250, []) := by decide

set_option maxRecDepth 20000 in
theorem c3segFin : feed defaultPats (c3stC 250) "error\n".data c3cmd = (c3final, []) := by
  decide

/-- The pre-truncation state `c3stC 250` is reachable from a fresh detector
by a sequence of `feed` calls, which emit exactly one event on the way. -/
theorem c3reach : feedChunks defaultPats initDet c3cmd c3pre = (c3stC 250, [c3ev]) := by
  have h0 : initDet = c3stA 0 := rfl
  rw [c3pre, feedChunks, h0, c3segA1]
  rw [feedChunks, c3segA2]
  rw [feedChunks, c3segA3]
  rw [feedChunks, c3segErr]
  rw [feedChunks, c3segB1]
  rw [feedChunks, c3segB2]
  rw [feedChunks, c3segC1]
  rfl

set_option maxRecDepth 20000 in
/-- Counterexample for claim C3 (corrected): after a truncation the reported
set still holds index 300, yet the line list has shrunk back to length 300,
so the next completed line receives index 300 — not an index strictly greater
than every reported one — and the matching line `error` is suppressed: the
final `feed` emits no event although the pattern matches.  (False negatives
do occur.) -/
theorem claim_C3_counterexample :
    feedChunks defaultPats initDet c3cmd c3pre = (c3stC 250, [c3ev]) ∧
      feed defaultPats (c3stC 250) "error\n".data c3cmd = (c3final, []) ∧
      (mkWordPat "error").search "error".data = true ∧
      (c3stC 250).seen = [300] ∧
      (c3stC 250).lines.length = 300 :=
  ⟨c3reach, c3segFin, by decide, rfl, by decide⟩

namespace Notifier

/-- Python slice `s[-n:]`. -/
def tailChars (n : Nat) (s : Str) : Str := s.drop (s.length - n)

/-- Number of bytes of the UTF-8 encoding of a string (`len(s.encode('utf-8'))`). -/
def utf8Len (s : Str) : Nat := (s.map Char.utf8Size).sum

/-- The request body built by `Notifier.send`:
`f'{event.message}\nCommand: {event.command}'`, and when the context is
non-empty, a blank line followed by `event.context[-500:]` — note the slice
counts characters, not bytes. -/
def notifyBody (e : Event) : Str :=
  e.message ++ "\nCommand: ".data ++ e.command ++
    (if e.context = [] then [] else '\n' :: '\n' :: tailChars 500 e.context)

/-- The rate-limiting key `f'{event.event_type}:{event.command}'`. -/
def notifyKey (e : Event) : Str := e.event_type ++ ':' :: e.command

/-- Lookup in the `last_notify` dict (updates shadow older entries, so a
first-match lookup agrees with the Python dict). -/
def alookup : List (Str × ℚ) → Str → Option ℚ
  | [], _ => none
  | (k, v) :: rest, key => if k = key then some v else alookup rest key

/-- State of the shared `Notifier`: the `last_notify` map together with the
log of HTTP POST requests actually issued, as (key, time, body) triples. -/
structure NotifierState where
  lastNotify : List (Str × ℚ)
  posts : List (Str × ℚ × Str)
  deriving DecidableEq

/-- `Notifier.__init__`. -/
def initNotifier : NotifierState := ⟨[], []⟩

/-- `Notifier.rate_limit` (seconds between same-key notifications). -/
def rateLimit : ℚ := 10

/-- The guard `key in self.last_notify and now - self.last_notify[key] < self.rate_limit`. -/
def rateLimited (ns : NotifierState) (key : Str) (now : ℚ) : Bool :=
  match alookup ns.lastNotify key with
  | some t => decide (now - t < rateLimit)
  | none => false

/-- `Notifier.send(event)` at wall-clock time `now`.  `httpOk` is the outcome
of the HTTP POST (`resp.status == 200`; network errors and timeouts yield
`false`).  The timestamp is recorded and the POST issued whether or not the
request later succeeds. -/
def send (ns : NotifierState) (now : ℚ) (e : Event) (httpOk : Bool) :
    NotifierState × Bool :=
  let key := notifyKey e
  if rateLimited ns key now then (ns, false)
  else
    ({ lastNotify := (key, now) :: ns.lastNotify,
       posts := ns.posts ++ [(key, now, notifyBody e)] }, httpOk)

/-- A sequence of `send` calls (time, event, HTTP outcome). -/
def runNotifier (ns : NotifierState) : List (ℚ × Event × Bool) → NotifierState
  | [] => ns
  | (now, e, ok) :: rest => runNotifier (send ns now e ok).1 rest

/-- The times of the POSTs issued so far for one key, in order. -/
def postTimes (ns : NotifierState) (key : Str) : List ℚ :=
  (ns.posts.filter fun p => decide (p.1 = key)).map fun p => p.2.1

/-- The rate-limiter invariant: for every key, the `last_notify` entry is the
time of the last POST issued for that key, and consecutive POST times for one
key are at least `rate_limit` apart. -/
def NInv (ns : NotifierState) : Prop :=
  ∀ key, alookup ns.lastNotify key = (postTimes ns key).getLast? ∧
    List.Chain' (fun x y : ℚ => x + rateLimit ≤ y) (postTimes ns key)

theorem NInv_init : NInv initNotifier := by
  intro key
  simp [initNotifier, postTimes, alookup]

theorem postTimes_send_issue (ns : NotifierState) (now : ℚ) (e : Event)
    (ok : Bool) (key : Str) (hr : rateLimited ns (notifyKey e) now = false) :
    postTimes (send ns now e ok).1 key =
      postTimes ns key ++ (if notifyKey e = key then [now] else []) := by
  simp only [send, hr, Bool.false_eq_true, if_false, postTimes, List.filter_append,
    List.map_append]
  by_cases hk : notifyKey e = key <;> simp [hk]

theorem NInv_send (ns : NotifierState) (now : ℚ) (e : Event) (ok : Bool)
    (h : NInv ns) : NInv (send ns now e ok).1 := by
  by_cases hr : rateLimited ns (notifyKey e) now
  · simpa [send, hr] using h
  · intro key
    have hpt := postTimes_send_issue ns now e ok key (by simpa using hr)
    obtain ⟨h1, h2⟩ := h key
    have hrf : rateLimited ns (notifyKey e) now = false := by simpa using hr
    by_cases hk : notifyKey e = key
    · subst hk
      have hgap : ∀ x, (postTimes ns (notifyKey e)).getLast? = some x →
          x + rateLimit ≤ now := by
        intro x hx
        rw [← h1] at hx
        have : ¬(now - x < rateLimit) := by
          intro hlt
          rw [rateLimited, hx] at hrf
          simp [hlt] at hrf
        linarith [not_lt.mp this]
      constructor
      · rw [hpt]
        simp [Notifier.send, hrf, alookup, List.getLast?_concat]
      · rw [hpt]
        simp only [if_pos rfl]
        rw [List.chain'_append]
        refine ⟨h2, List.chain'_singleton now, ?_⟩
        intro x hx y hy
        simp at hy
        subst hy
        exact hgap x hx
    · constructor
      · rw [hpt]
        simp only [if_neg hk, List.append_nil]
        simpa [Notifier.send, hrf, alookup, hk] using h1
      · rw [hpt]
        simpa [hk] using h2

theorem NInv_run : ∀ (calls : List (ℚ × Event × Bool)) (ns : NotifierState),
    NInv ns → NInv (runNotifier ns calls) := by
  intro calls
  induction calls with
  | nil => intro ns h; exact h
  | cons c rest ih =>
    intro ns h
    obtain ⟨now, e, ok⟩ := c
    exact ih _ (NInv_send ns now e ok h)

theorem window_le_one (l : List ℚ)
    (hp : List.Pairwise (fun x y : ℚ => x + rateLimit ≤ y) l) (a : ℚ) :
    (l.filter fun t => decide (a ≤ t ∧ t < a + rateLimit)).length ≤ 1 := by
  induction l with
  | nil => simp
  | cons x xs ih =>
    obtain ⟨hx, hxs⟩ := List.pairwise_cons.mp hp
    by_cases hw : (a ≤ x ∧ x < a + rateLimit)
    · have hnil : (xs.filter fun t => decide (a ≤ t ∧ t < a + rateLimit)) = [] := by
        rw [List.filter_eq_nil_iff]
        intro y hy
        simp only [decide_eq_true_eq, not_and, not_lt]
        intro _
        have := hx y hy
        linarith [hw.1, hw.2]
      simp only [List.filter_cons, decide_eq_true_eq]
      rw [if_pos hw, hnil]
      simp
    · simp only [List.filter_cons, decide_eq_true_eq]
      rw [if_neg hw]
      exact ih hxs

end Notifier

open Notifier in
/-- Claim C6 (confirmed): (1) a `send` within `rate_limit = 10` seconds of
the recorded timestamp for the event's `(kind, command)` key returns `false`
and issues no HTTP request; (2) otherwise the timestamp is set to the call
time and the POST is issued, with the same state update whether or not the
request succeeds (`ok` is only the returned Boolean); (3) consequently, for
every key, any half-open 10-second window `[a, a + 10)` contains at most one
issued POST. -/
theorem claim_C6 :
    (∀ (ns : NotifierState) (now : ℚ) (e : Event) (ok : Bool) (t : ℚ),
        alookup ns.lastNotify (notifyKey e) = some t →
        now - t < rateLimit →
        Notifier.send ns now e ok = (ns, false)) ∧
    (∀ (ns : NotifierState) (now : ℚ) (e : Event) (ok : Bool),
        (∀ t, alookup ns.lastNotify (notifyKey e) = some t →
          rateLimit ≤ now - t) →
        Notifier.send ns now e ok =
          ({ lastNotify := (notifyKey e, now) :: ns.lastNotify,
             posts := ns.posts ++ [(notifyKey e, now, notifyBody e)] }, ok)) ∧
    (∀ (calls : List (ℚ × Event × Bool)) (key : Str) (a : ℚ),
        ((postTimes (runNotifier initNotifier calls) key).filter
            fun t => decide (a ≤ t ∧ t < a + rateLimit)).length ≤ 1) := by
  refine ⟨?_, ?_, ?_⟩
  · intro ns now e ok t ht hlt
    have : rateLimited ns (notifyKey e) now = true := by
      rw [rateLimited, ht]
      simpa using hlt
    simp [Notifier.send, this]
  · intro ns now e ok h
    have : rateLimited ns (notifyKey e) now = false := by
      rw [rateLimited]
      cases ha : alookup ns.lastNotify (notifyKey e) with
      | none => rfl
      | some t =>
        have := h t ha
        simp only [decide_eq_false_iff_not, not_lt]
        exact this
    simp [Notifier.send, this]
  · intro calls key a
    have hinv := NInv_run calls initNotifier NInv_init key
    haveI : IsTrans ℚ (fun x y : ℚ => x + rateLimit ≤ y) :=
      ⟨fun a b c hab hbc => by
        simp only [rateLimit] at *
        linarith⟩
    exact window_le_one _ (List.chain'_iff_pairwise.mp hinv.2) a

/-- The concrete event used by the C6 witness. -/
def c6we : Event :=
  { event_type := "exit_code".data, message := "m".data, priority := "high".data,
    tags := [], context := [], command := "b".data }

/-- The concrete pre-populated notifier state used by the C6 witness. -/
def c6ns : Notifier.NotifierState :=
  { lastNotify := [(Notifier.notifyKey c6we, 0)], posts := [] }

open Notifier in
/-- Witness for C6 at concrete inputs: a second `send` 5 seconds after the
recorded one is dropped; a `send` with no recorded timestamp issues the POST
and updates the map; and a two-call run puts at most one POST in the window
starting at time 0. -/
theorem claim_C6_witness :
    Notifier.send c6ns 5 c6we true = (c6ns, false) ∧
      Notifier.send initNotifier 0 c6we true =
        ({ lastNotify := [(notifyKey c6we, 0)],
           posts := [(notifyKey c6we, 0, notifyBody c6we)] }, true) ∧
      ((postTimes (runNotifier initNotifier [(0, c6we, true), (5, c6we, true)])
          (notifyKey c6we)).filter
        fun t => decide ((0 : ℚ) ≤ t ∧ t < 0 + rateLimit)).length ≤ 1 := by
  refine ⟨?_, ?_, claim_C6.2.2 [(0, c6we, true), (5, c6we, true)] (notifyKey c6we) 0⟩
  · exact claim_C6.1 c6ns 5 c6we true 0 (by simp [c6ns, alookup])
      (by norm_num [rateLimit])
  · have h := claim_C6.2.1 initNotifier 0 c6we true
      (by intro t ht; simp [alookup, initNotifier] at ht)
    simpa [initNotifier] using h

/-- Every character encodes to at most four UTF-8 bytes. -/
theorem utf8Size_le_four (c : Char) : c.utf8Size ≤ 4 := by
  simp only [Char.utf8Size]
  split
  · omega
  · split
    · omega
    · split <;> omega

open Notifier in
/-- Claim C9, amended part (corrected): the context portion `send` appends to
the request body is the trailing snippet `event.context[-500:]` of the
context — at most 500 characters, a suffix of the context — and its UTF-8
encoding occupies at most 2000 bytes (4 per character); it is not bounded by
500 bytes, because the slice counts characters. -/
theorem claim_C9 (e : Event) :
    (tailChars 500 e.context).length ≤ 500 ∧
      tailChars 500 e.context <:+ e.context ∧
      utf8Len (tailChars 500 e.context) ≤ 2000 ∧
      (e.context ≠ [] →
        notifyBody e = e.message ++ "\nCommand: ".data ++ e.command ++
          ('\n' :: '\n' :: tailChars 500 e.context)) := by
  refine ⟨?_, ?_, ?_, ?_⟩
  · simp only [tailChars, List.length_drop]
    omega
  · exact List.drop_suffix _ _
  · have hlen : (tailChars 500 e.context).length ≤ 500 := by
      simp only [tailChars, List.length_drop]
      omega
    have hsum := List.sum_le_card_nsmul ((tailChars 500 e.context).map Char.utf8Size) 4
      (by
        intro x hx
        obtain ⟨c, -, rfl⟩ := List.mem_map.mp hx
        exact utf8Size_le_four c)
    simp only [utf8Len, List.length_map, smul_eq_mul] at hsum ⊢
    omega
  · intro h
    simp [notifyBody, h]

/-- The concrete event of the C9 counterexample: a context of 500 cent-sign
characters, each of which is two bytes in UTF-8. -/
def c9ev : Event :=
  { event_type := "pattern_match".data, message := "m".data,
    priority := "high".data, tags := ["warning".data],
    context := List.replicate 500 '¢', command := "c".data }

set_option maxRecDepth 10000 in
/-- Counterexample for claim C9 (corrected): for a 500-character non-ASCII
context, the snippet `context[-500:]` that `send` appends to the body
occupies 1000 UTF-8 bytes when transmitted — more than the claimed 500-byte
bound (the slice bounds characters, not bytes). -/
theorem claim_C9_counterexample :
    Notifier.utf8Len (Notifier.tailChars 500 c9ev.context) = 1000 ∧
      500 < Notifier.utf8Len (Notifier.tailChars 500 c9ev.context) ∧
      Notifier.notifyBody c9ev =
        "m\nCommand: c\n\n".data ++ List.replicate 500 '¢' := by
  refine ⟨by decide, by decide, by decide⟩

/-- The concrete event of the C9 witness. -/
def c9we : Event :=
  { event_type := "pattern_match".data, message := "m".data,
    priority := "high".data, tags := ["warning".data],
    context := "ok".data, command := "c".data }

open Notifier in
/-- Witness for the amended C9 at a concrete event with a short non-empty
context. -/
theorem claim_C9_witness :
    (tailChars 500 c9we.context).length ≤ 500 ∧
      tailChars 500 c9we.context <:+ c9we.context ∧
      utf8Len (tailChars 500 c9we.context) ≤ 2000 ∧
      notifyBody c9we = c9we.message ++ "\nCommand: ".data ++ c9we.command ++
        ('\n' :: '\n' :: tailChars 500 c9we.context) :=
  ⟨(claim_C9 c9we).1, (claim_C9 c9we).2.1, (claim_C9 c9we).2.2.1,
   (claim_C9 c9we).2.2.2 (by decide)⟩

namespace Session

/-- JSON values as produced by `json.loads`.  A non-integral number is
modelled by the marker `float`: this program never inspects a float beyond
its type.  Object fields keep their textual order; `jlookup` takes the last
binding for a key, as the Python dict built by the parser would. -/
inductive Json where
  | null : Json
  | bool (b : Bool) : Json
  | int (n : Int) : Json
  | float : Json
  | str (s : Str) : Json
  | arr (xs : List Json) : Json
  | obj (fields : List (Str × Json)) : Json

/-- Python dict lookup `msg.get(key)` for a dict built from the field list in
order (later duplicates shadow earlier ones). -/
def jlookup (fields : List (Str × Json)) (key : Str) : Option Json :=
  fields.foldl (fun acc kv => if kv.1 = key then some kv.2 else acc) none

/-- Python `msg.get(key, d)`. -/
def jgetD (fields : List (Str × Json)) (key : Str) (d : Json) : Json :=
  (jlookup fields key).getD d

/-- The uncaught Python exceptions relevant to the session loop. -/
inductive PyExc where
  | unicodeDecodeError
  | attributeError
  | structError
  deriving DecidableEq, Repr

/-- One chunk read from the client socket: the raw bytes together with the
outcome of `data.decode('utf-8')` and of `json.loads` applied to the stripped
decoded text (these outcomes are produced by the Python standard library; the
embedding takes them as the chunk's view). -/
inductive ChunkView where
  | undecodable (raw : List Nat) : ChunkView
  | decoded (raw : List Nat) (text : Str) (parsed : Option Json) : ChunkView

/-- What the chunk-handling code decides to do with one client chunk. -/
inductive ChunkAct where
  | doResize (rows cols : Json)
  | doInput (data : Str)
  | rawWrite (raw : List Nat)
  | raiseExc (e : PyExc)

/-- The control-frame recognition of `Session._loop` (the
`msg = json.loads(data.decode('utf-8').strip())` block):
- undecodable bytes raise `UnicodeDecodeError`, which the surrounding
  `except (json.JSONDecodeError, KeyError)` and `except OSError` do not catch;
- a failed parse is caught and the chunk is written to the PTY verbatim;
- a parsed non-object raises `AttributeError` from `msg.get` — uncaught;
- `type == 'resize'` calls `_resize(msg.get('rows', 24), msg.get('cols', 80))`;
- `type == 'input'` writes `msg['data'].encode('utf-8')`; a missing `data`
  key raises `KeyError`, which is caught (raw write); a non-string `data`
  raises `AttributeError` from `.encode` — uncaught;
- any other (or missing, or non-string) `type` falls through to a raw write. -/
def classifyChunk : ChunkView → ChunkAct
  | .undecodable _ => .raiseExc .unicodeDecodeError
  | .decoded raw _ none => .rawWrite raw
  | .decoded raw _ (some j) =>
    match j with
    | .obj fields =>
      match jlookup fields "type".data with
      | some (.str t) =>
        if t = "resize".data then
          .doResize (jgetD fields "rows".data (.int 24)) (jgetD fields "cols".data (.int 80))
        else if t = "input".data then
          match jlookup fields "data".data with
          | some (.str d) => .doInput d
          | some _ => .raiseExc .attributeError
          | none => .rawWrite raw
        else .rawWrite raw
      | _ => .rawWrite raw
    | _ => .raiseExc .attributeError

/-- `struct.pack('HHHH', v, ...)` accepts a Python int (booleans included) in
`[0, 65535]` and raises `struct.error` for anything else, floats and strings
included. -/
def jsonToUShort : Json → Option Nat
  | .int n => if 0 ≤ n ∧ n < 65536 then some n.toNat else none
  | .bool b => some (if b then 1 else 0)
  | _ => none

/-- A frame sent to the client by `_send_to_client` (JSON encoding left
abstract; the `exit` payload is the decimal code string). -/
inductive Frame where
  | output (data : Str)
  | event (e : Event)
  | exit (code : Str)
  deriving DecidableEq, Repr

/-- Observable actions of a session, in chronological order. -/
inductive Action where
  | sentFrame (f : Frame)
  | ptyWriteText (data : Str)
  | ptyWriteRaw (raw : List Nat)
  | resized (rows cols : Nat)
  | notifyCall (e : Event)
  | closedMaster
  | closedClient
  deriving DecidableEq, Repr

/-- State of a `Session` as seen by `_loop`.  `sendFates` is the environment's
prophecy of the outcomes of the successive `client.sendall` calls (`true` =
delivered, `false` = `OSError`); an exhausted list means every later send
succeeds. -/
structure SessionState where
  running : Bool
  commandStr : Str
  inactivityTimeout : Option Int
  lastActivity : ℚ
  inactivityNotified : Bool
  det : PatternDetector.DetState
  sendFates : List Bool
  log : List Action
  deriving DecidableEq, Repr

/-- `Session._send_to_client`: on success the frame is delivered; an `OSError`
is swallowed and `self.running` is set to `False` (the frame is lost). -/
def sendToClient (st : SessionState) (f : Frame) : SessionState :=
  match st.sendFates with
  | [] => { st with log := st.log ++ [.sentFrame f] }
  | true :: rest => { st with log := st.log ++ [.sentFrame f], sendFates := rest }
  | false :: rest => { st with running := false, sendFates := rest }

/-- `Session._finish`: set `running = False`, close the PTY master, then close
the client socket (close errors are swallowed). -/
def finish (st : SessionState) : SessionState :=
  { st with running := false, log := st.log ++ [.closedMaster, .closedClient] }

/-- CPython's `os.WTERMSIG`: the low seven bits of the wait status. -/
def WTERMSIG (status : Nat) : Nat := status % 128

/-- CPython's `os.WIFEXITED`: term signal zero. -/
def WIFEXITED (status : Nat) : Bool := WTERMSIG status == 0

/-- CPython's `os.WIFSIGNALED`: term signal nonzero and not the 0x7f stop
marker. -/
def WIFSIGNALED (status : Nat) : Bool := WTERMSIG status != 0 && WTERMSIG status != 127

/-- CPython's `os.WEXITSTATUS`: bits 8..15 of the wait status. -/
def WEXITSTATUS (status : Nat) : Nat := (status / 256) % 256

/-- The exit-code computation at the head of `Session._handle_exit`. -/
def computeExitCode (status : Nat) : Nat :=
  if WIFEXITED status then WEXITSTATUS status
  else if WIFSIGNALED status then 128 + WTERMSIG status
  else 1

/-- The `exit_code` event constructed by `_handle_exit`. -/
def exitCodeEvent (cmd : Str) (code : Nat) : Event :=
  { event_type := "exit_code".data,
    message := "Exited with code ".data ++ (Nat.repr code).data,
    priority := "high".data, tags := ["x".data], context := [], command := cmd }

/-- The `inactivity` event constructed by the watchdog check. -/
def inactivityEvent (cmd : Str) (t : Int) : Event :=
  { event_type := "inactivity".data,
    message := "No output for ".data ++ (Int.repr t).data ++ "s".data,
    priority := "default".data, tags := ["hourglass_done".data],
    context := [], command := cmd }

/-- `Session._handle_exit(status)`: compute the code, emit an `exit_code`
event to the notifier iff it is nonzero, send the `exit` frame with the
decimal code, then `_finish`. -/
def handleExit (st : SessionState) (status : Nat) : SessionState :=
  let code := computeExitCode status
  let st1 := if code ≠ 0
    then { st with log := st.log ++ [.notifyCall (exitCodeEvent st.commandStr code)] }
    else st
  let st2 := sendToClient st1 (.exit (Nat.repr code).data)
  finish st2

/-- The watchdog check at the top of every loop iteration.  The guard
`if self.inactivity_timeout and not inactivity_notified` uses Python
truthiness, so a timeout of `0` (or `None`) disarms the watchdog; the inner
comparison is `time.time() - last_activity > self.inactivity_timeout`. -/
def inactivityCheck (st : SessionState) (now : ℚ) : SessionState :=
  match st.inactivityTimeout with
  | none => st
  | some t =>
    if t ≠ 0 ∧ st.inactivityNotified = false ∧ (t : ℚ) < now - st.lastActivity then
      let ev := inactivityEvent st.commandStr t
      let st1 := { st with log := st.log ++ [.notifyCall ev] }
      let st2 := sendToClient st1 (.event ev)
      { st2 with inactivityNotified := true }
    else st

/-- The master-readable branch for a non-empty read: reset the activity
clock, send the bytes to the client as an `output` frame, feed the decoded
text to the detector, and hand each event to the notifier. -/
def ptyData (pats : List Pat) (st : SessionState) (data : Str) (now : ℚ) :
    SessionState :=
  let st1 := { st with lastActivity := now, inactivityNotified := false }
  let st2 := sendToClient st1 (.output data)
  let r := PatternDetector.feed pats st2.det data st2.commandStr
  { st2 with det := r.1, log := st2.log ++ r.2.map .notifyCall }

/-- One read on the client socket. -/
inductive ClientRead where
  | osErr
  | closed
  | chunk (c : ChunkView)

/-- `Session._resize` in terms of its observable effect: a successful pack of
rows and cols performs the `TIOCSWINSZ` ioctl (whose own `OSError` is caught),
and a pack failure raises `struct.error`, which no handler on the path
catches.  (`if self.master_fd` is true for any descriptor the daemon obtains,
since fd 0 stays occupied.) -/
def resizeAct (rows cols : Json) : Except PyExc Action :=
  match jsonToUShort rows, jsonToUShort cols with
  | some r, some c => .ok (.resized r c)
  | _, _ => .error .structError

/-- The client-readable branch: `recv` errors are swallowed, an empty read
flips `running`, and a chunk goes through the control-frame recognition.  An
`.error` outcome is an exception that escapes `_loop`. -/
def clientStep (st : SessionState) (r : ClientRead) : Except PyExc SessionState :=
  match r with
  | .osErr => .ok st
  | .closed => .ok { st with running := false }
  | .chunk v =>
    match classifyChunk v with
    | .rawWrite raw => .ok { st with log := st.log ++ [.ptyWriteRaw raw] }
    | .doInput d => .ok { st with log := st.log ++ [.ptyWriteText d] }
    | .doResize rows cols =>
      match resizeAct rows cols with
      | .ok a => .ok { st with log := st.log ++ [a] }
      | .error e => .error e
    | .raiseExc e => .error e

/-- Result of the non-blocking `waitpid` at the end of an iteration. -/
inductive WaitRes where
  | alive
  | reaped (status : Nat)
  | gone
  deriving DecidableEq, Repr

/-- The environment's input to one loop iteration: the time, whether each
descriptor was readable (and what a read returns), and the reap outcome. -/
structure IterInput where
  now : ℚ
  pty : Option Str
  client : Option ClientRead
  wait : WaitRes

/-- One iteration's input, or a `select` error (which breaks out of the
loop). -/
inductive IterIn where
  | selectErr
  | ok (i : IterInput)

/-- Outcome of one loop iteration. -/
inductive StepRes where
  | next (st : SessionState)
  | done (st : SessionState)
  | crashed (e : PyExc) (st : SessionState)
  deriving DecidableEq, Repr

/-- The `waitpid` check: a reaped child goes through `_handle_exit` and the
loop returns; a missing child goes through `_finish` and the loop returns. -/
def waitStep (st : SessionState) (w : WaitRes) : StepRes :=
  match w with
  | .alive => .next st
  | .reaped status => .done (handleExit st status)
  | .gone => .done (finish st)

/-- The client branch followed by the `waitpid` check; an uncaught exception
aborts the iteration with the state as it was when the exception was
raised. -/
def clientThenWait (st : SessionState) (c : Option ClientRead) (w : WaitRes) :
    StepRes :=
  match c with
  | none => waitStep st w
  | some r =>
    match clientStep st r with
    | .ok st' => waitStep st' w
    | .error e => .crashed e st

/-- One full iteration of `Session._loop`: watchdog check, then the readable
descriptors in `select`'s order (master first — an EOF read calls `_finish`
and returns at once, skipping the client), then the child reap. -/
def loopIter (pats : List Pat) (st : SessionState) : IterIn → StepRes
  | .selectErr => .done st
  | .ok i =>
    let st1 := inactivityCheck st i.now
    match i.pty with
    | some data =>
      if data = [] then .done (finish st1)
      else clientThenWait (ptyData pats st1 data i.now) i.client i.wait
    | none => clientThenWait st1 i.client i.wait

/-- How a run of the loop ended. -/
inductive LoopEnd where
  | outOfTrace
  | whileExit
  | returned
  | crashed (e : PyExc)
  deriving DecidableEq, Repr

/-- `Session._loop` driven by a finite environment trace: the `while
self.running` loop, one `IterIn` per iteration. -/
def runLoop (pats : List Pat) : SessionState → List IterIn → LoopEnd × SessionState
  | st, [] => (.outOfTrace, st)
  | st, i :: rest =>
    if st.running then
      match loopIter pats st i with
      | .next st' => runLoop pats st' rest
      | .done st' => (.returned, st')
      | .crashed e st' => (.crashed e, st')
    else (.whileExit, st)

/-- A freshly started session (`Session.__init__` plus the loop prologue),
with the environment's prophecy of send outcomes. -/
def initSession (cmd : Str) (tmo : Option Int) (t0 : ℚ) (fates : List Bool) :
    SessionState :=
  { running := true, commandStr := cmd, inactivityTimeout := tmo,
    lastActivity := t0, inactivityNotified := false,
    det := PatternDetector.initDet, sendFates := fates, log := [] }

/-- The frames delivered to the client, in order. -/
def framesOf (log : List Action) : List Frame :=
  log.filterMap fun a => match a with | .sentFrame f => some f | _ => none

/-- Is a frame an `exit` frame? -/
def isExitFrame : Frame → Bool
  | .exit _ => true
  | _ => false

/-- Is an action a descriptor close? -/
def isClose : Action → Bool
  | .closedMaster => true
  | .closedClient => true
  | _ => false

/-- The close actions of a log, in order. -/
def closesOf (log : List Action) : List Action := log.filter isClose

/-! Log-extension lemmas feeding the loop invariants: a continuing iteration
appends only clean actions (no exit frame, no close), a returning iteration
may end with one exit frame and the master-then-client close pair. -/

theorem framesOf_append (l1 l2 : List Action) :
    framesOf (l1 ++ l2) = framesOf l1 ++ framesOf l2 :=
  List.filterMap_append l1 l2 _

theorem closesOf_append (l1 l2 : List Action) :
    closesOf (l1 ++ l2) = closesOf l1 ++ closesOf l2 :=
  List.filter_append l1 l2

@[simp] theorem framesOf_nil : framesOf [] = [] := rfl

@[simp] theorem framesOf_cons_sent (f : Frame) (l : List Action) :
    framesOf (Action.sentFrame f :: l) = f :: framesOf l := rfl

@[simp] theorem framesOf_cons_ptyText (s : Str) (l : List Action) :
    framesOf (Action.ptyWriteText s :: l) = framesOf l := rfl

@[simp] theorem framesOf_cons_ptyRaw (b : List Nat) (l : List Action) :
    framesOf (Action.ptyWriteRaw b :: l) = framesOf l := rfl

@[simp] theorem framesOf_cons_resized (r c : Nat) (l : List Action) :
    framesOf (Action.resized r c :: l) = framesOf l := rfl

@[simp] theorem framesOf_cons_notify (e : Event) (l : List Action) :
    framesOf (Action.notifyCall e :: l) = framesOf l := rfl

@[simp] theorem framesOf_cons_cm (l : List Action) :
    framesOf (Action.closedMaster :: l) = framesOf l := rfl

@[simp] theorem framesOf_cons_cc (l : List Action) :
    framesOf (Action.closedClient :: l) = framesOf l := rfl

@[simp] theorem closesOf_nil : closesOf [] = [] := rfl

@[simp] theorem closesOf_cons_sent (f : Frame) (l : List Action) :
    closesOf (Action.sentFrame f :: l) = closesOf l := rfl

@[simp] theorem closesOf_cons_ptyText (s : Str) (l : List Action) :
    closesOf (Action.ptyWriteText s :: l) = closesOf l := rfl

@[simp] theorem closesOf_cons_ptyRaw (b : List Nat) (l : List Action) :
    closesOf (Action.ptyWriteRaw b :: l) = closesOf l := rfl

@[simp] theorem closesOf_cons_resized (r c : Nat) (l : List Action) :
    closesOf (Action.resized r c :: l) = closesOf l := rfl

@[simp] theorem closesOf_cons_notify (e : Event) (l : List Action) :
    closesOf (Action.notifyCall e :: l) = closesOf l := rfl

@[simp] theorem closesOf_cons_cm (l : List Action) :
    closesOf (Action.closedMaster :: l) = Action.closedMaster :: closesOf l := rfl

@[simp] theorem closesOf_cons_cc (l : List Action) :
    closesOf (Action.closedClient :: l) = Action.closedClient :: closesOf l := rfl

@[simp] theorem isExitFrame_output (s : Str) : isExitFrame (.output s) = false := rfl

@[simp] theorem isExitFrame_event (e : Event) : isExitFrame (.event e) = false := rfl

@[simp] theorem isExitFrame_exit (s : Str) : isExitFrame (.exit s) = true := rfl

@[simp] theorem framesOf_map_notify (evs : List Event) :
    framesOf (evs.map Action.notifyCall) = [] := by
  induction evs with
  | nil => rfl
  | cons e es ih => simpa using ih

@[simp] theorem closesOf_map_notify (evs : List Event) :
    closesOf (evs.map Action.notifyCall) = [] := by
  induction evs with
  | nil => rfl
  | cons e es ih => simpa using ih

/-- A batch of appended actions that contains no exit frame and no close. -/
def CleanActs (d : List Action) : Prop :=
  (∀ f ∈ framesOf d, isExitFrame f = false) ∧ closesOf d = []

/-- A batch of appended actions in which only the last frame may be an exit
frame and the closes are absent or exactly the master-then-client pair. -/
def GoodTail (d : List Action) : Prop :=
  (∀ f ∈ (framesOf d).dropLast, isExitFrame f = false) ∧
    (closesOf d = [] ∨ closesOf d = [Action.closedMaster, Action.closedClient])

theorem CleanActs_nil : CleanActs [] := by
  constructor <;> simp

theorem CleanActs_append {a b : List Action} (ha : CleanActs a) (hb : CleanActs b) :
    CleanActs (a ++ b) := by
  refine ⟨?_, ?_⟩
  · rw [framesOf_append]
    intro f hf
    rcases List.mem_append.mp hf with h | h
    · exact ha.1 f h
    · exact hb.1 f h
  · rw [closesOf_append, ha.2, hb.2]
    rfl

theorem mem_dropLast_append {α : Type _} {x : α} (A B : List α)
    (hx : x ∈ (A ++ B).dropLast) : x ∈ A ∨ x ∈ B.dropLast := by
  cases B with
  | nil =>
    rw [List.append_nil] at hx
    exact Or.inl ((List.dropLast_sublist A).subset hx)
  | cons b bs =>
    rw [List.dropLast_append_cons] at hx
    rcases List.mem_append.mp hx with h | h
    · exact Or.inl h
    · exact Or.inr h

theorem GoodTail_nil : GoodTail [] := by
  constructor
  · simp
  · left; simp

theorem GoodTail_clean_append {a b : List Action} (ha : CleanActs a) (hb : GoodTail b) :
    GoodTail (a ++ b) := by
  refine ⟨?_, ?_⟩
  · rw [framesOf_append]
    intro f hf
    rcases mem_dropLast_append (framesOf a) (framesOf b) hf with h | h
    · exact ha.1 f h
    · exact hb.1 f h
  · rw [closesOf_append, ha.2]
    simpa using hb.2

theorem GoodTail_pair : GoodTail [Action.closedMaster, Action.closedClient] := by
  constructor
  · simp
  · right; simp

theorem inactivityCheck_log (st : SessionState) (now : ℚ) :
    ∃ d, (inactivityCheck st now).log = st.log ++ d ∧ CleanActs d := by
  cases ht : st.inactivityTimeout with
  | none => exact ⟨[], by simp [inactivityCheck, ht], CleanActs_nil⟩
  | some t =>
    by_cases hc : (t ≠ 0 ∧ st.inactivityNotified = false ∧ (t : ℚ) < now - st.lastActivity)
    · rcases hf : st.sendFates with _ | ⟨b, rest⟩
      · refine ⟨[Action.notifyCall (inactivityEvent st.commandStr t),
          Action.sentFrame (Frame.event (inactivityEvent st.commandStr t))], ?_, ?_, ?_⟩
        · simp [inactivityCheck, ht, hc, sendToClient, hf]
        · intro f hf2
          simp at hf2
          rw [hf2]
          rfl
        · simp
      · cases b
        · refine ⟨[Action.notifyCall (inactivityEvent st.commandStr t)], ?_, ?_, ?_⟩
          · simp [inactivityCheck, ht, hc, sendToClient, hf]
          · intro f hf2
            simp at hf2
          · simp
        · refine ⟨[Action.notifyCall (inactivityEvent st.commandStr t),
            Action.sentFrame (Frame.event (inactivityEvent st.commandStr t))], ?_, ?_, ?_⟩
          · simp [inactivityCheck, ht, hc, sendToClient, hf]
          · intro f hf2
            simp at hf2
            rw [hf2]
            rfl
          · simp
    · exact ⟨[], by simp [inactivityCheck, ht, hc], CleanActs_nil⟩

theorem ptyData_log (pats : List Pat) (st : SessionState) (data : Str) (now : ℚ) :
    ∃ d, (ptyData pats st data now).log = st.log ++ d ∧ CleanActs d := by
  rcases hf : st.sendFates with _ | ⟨b, rest⟩
  · refine ⟨Action.sentFrame (Frame.output data) ::
      (PatternDetector.feed pats st.det data st.commandStr).2.map Action.notifyCall,
      ?_, ?_, ?_⟩
    · simp [ptyData, sendToClient, hf]
    · intro f hf2
      simp at hf2
      rw [hf2]
      rfl
    · simp
  · cases b
    · refine ⟨(PatternDetector.feed pats st.det data st.commandStr).2.map
        Action.notifyCall, ?_, ?_, ?_⟩
      · simp [ptyData, sendToClient, hf]
      · intro f hf2
        simp at hf2
      · simp
    · refine ⟨Action.sentFrame (Frame.output data) ::
        (PatternDetector.feed pats st.det data st.commandStr).2.map Action.notifyCall,
        ?_, ?_, ?_⟩
      · simp [ptyData, sendToClient, hf]
      · intro f hf2
        simp at hf2
        rw [hf2]
        rfl
      · simp

theorem clientStep_ok_log (st : SessionState) (r : ClientRead) (st' : SessionState)
    (h : clientStep st r = .ok st') :
    ∃ d, st'.log = st.log ++ d ∧ CleanActs d := by
  cases r with
  | osErr =>
    simp only [clientStep, Except.ok.injEq] at h
    exact ⟨[], by rw [← h]; simp, CleanActs_nil⟩
  | closed =>
    simp only [clientStep, Except.ok.injEq] at h
    exact ⟨[], by rw [← h]; simp, CleanActs_nil⟩
  | chunk v =>
    cases hcv : classifyChunk v with
    | doResize rows cols =>
      rcases h1 : jsonToUShort rows with _ | rr <;>
        rcases h2 : jsonToUShort cols with _ | cc
      · simp [clientStep, hcv, resizeAct, h1, h2] at h
      · simp [clientStep, hcv, resizeAct, h1, h2] at h
      · simp [clientStep, hcv, resizeAct, h1, h2] at h
      · simp only [clientStep, hcv, resizeAct, h1, h2, Except.ok.injEq] at h
        refine ⟨[Action.resized rr cc], by rw [← h], ?_, ?_⟩
        · intro f hf2
          simp at hf2
        · simp
    | doInput dat =>
      simp only [clientStep, hcv, Except.ok.injEq] at h
      refine ⟨[Action.ptyWriteText dat], by rw [← h], ?_, ?_⟩
      · intro f hf2
        simp at hf2
      · simp
    | rawWrite raw =>
      simp only [clientStep, hcv, Except.ok.injEq] at h
      refine ⟨[Action.ptyWriteRaw raw], by rw [← h], ?_, ?_⟩
      · intro f hf2
        simp at hf2
      · simp
    | raiseExc e =>
      simp [clientStep, hcv] at h

theorem handleExit_log (st : SessionState) (status : Nat) :
    ∃ d, (handleExit st status).log = st.log ++ d ∧ GoodTail d := by
  by_cases hcode : computeExitCode status ≠ 0 <;>
    rcases hf : st.sendFates with _ | ⟨b, rest⟩
  · refine ⟨[Action.notifyCall (exitCodeEvent st.commandStr (computeExitCode status)),
      Action.sentFrame (Frame.exit (Nat.repr (computeExitCode status)).data),
      Action.closedMaster, Action.closedClient], ?_, ?_, ?_⟩
    · simp [handleExit, hcode, sendToClient, finish, hf]
    · intro f hf2
      simp at hf2
    · right; simp
  · cases b
    · refine ⟨[Action.notifyCall (exitCodeEvent st.commandStr (computeExitCode status)),
        Action.closedMaster, Action.closedClient], ?_, ?_, ?_⟩
      · simp [handleExit, hcode, sendToClient, finish, hf]
      · intro f hf2
        simp at hf2
      · right; simp
    · refine ⟨[Action.notifyCall (exitCodeEvent st.commandStr (computeExitCode status)),
        Action.sentFrame (Frame.exit (Nat.repr (computeExitCode status)).data),
        Action.closedMaster, Action.closedClient], ?_, ?_, ?_⟩
      · simp [handleExit, hcode, sendToClient, finish, hf]
      · intro f hf2
        simp at hf2
      · right; simp
  · refine ⟨[Action.sentFrame (Frame.exit (Nat.repr (computeExitCode status)).data),
      Action.closedMaster, Action.closedClient], ?_, ?_, ?_⟩
    · simp [handleExit, hcode, sendToClient, finish, hf]
    · intro f hf2
      simp at hf2
    · right; simp
  · cases b
    · refine ⟨[Action.closedMaster, Action.closedClient], ?_, ?_, ?_⟩
      · simp [handleExit, hcode, sendToClient, finish, hf]
      · intro f hf2
        simp at hf2
      · right; simp
    · refine ⟨[Action.sentFrame (Frame.exit (Nat.repr (computeExitCode status)).data),
        Action.closedMaster, Action.closedClient], ?_, ?_, ?_⟩
      · simp [handleExit, hcode, sendToClient, finish, hf]
      · intro f hf2
        simp at hf2
      · right; simp

/-! Shape of one loop iteration. -/

theorem waitStep_next (st : SessionState) (w : WaitRes) (st' : SessionState)
    (h : waitStep st w = .next st') : st' = st := by
  cases w with
  | alive => simp only [waitStep, StepRes.next.injEq] at h; exact h.symm
  | reaped status => simp [waitStep] at h
  | gone => simp [waitStep] at h

theorem waitStep_done (st : SessionState) (w : WaitRes) (st' : SessionState)
    (h : waitStep st w = .done st') :
    ∃ d, st'.log = st.log ++ d ∧ GoodTail d := by
  cases w with
  | alive => simp [waitStep] at h
  | reaped status =>
    simp only [waitStep, StepRes.done.injEq] at h
    rw [← h]
    exact handleExit_log st status
  | gone =>
    simp only [waitStep, StepRes.done.injEq] at h
    rw [← h]
    exact ⟨[Action.closedMaster, Action.closedClient], rfl, GoodTail_pair⟩

theorem waitStep_not_crashed (st : SessionState) (w : WaitRes) (e : PyExc)
    (st' : SessionState) (h : waitStep st w = .crashed e st') : False := by
  cases w <;> simp [waitStep] at h

theorem clientThenWait_next (st : SessionState) (c : Option ClientRead) (w : WaitRes)
    (st' : SessionState) (h : clientThenWait st c w = .next st') :
    ∃ d, st'.log = st.log ++ d ∧ CleanActs d := by
  cases c with
  | none =>
    rw [waitStep_next st w st' h]
    exact ⟨[], by simp, CleanActs_nil⟩
  | some r =>
    simp only [clientThenWait] at h
    cases hcs : clientStep st r with
    | ok stm =>
      rw [hcs] at h
      obtain ⟨d1, hd1, hc1⟩ := clientStep_ok_log st r stm hcs
      rw [waitStep_next stm w st' h, hd1]
      exact ⟨d1, rfl, hc1⟩
    | error e => rw [hcs] at h; simp at h

theorem clientThenWait_done (st : SessionState) (c : Option ClientRead) (w : WaitRes)
    (st' : SessionState) (h : clientThenWait st c w = .done st') :
    ∃ d, st'.log = st.log ++ d ∧ GoodTail d := by
  cases c with
  | none => exact waitStep_done st w st' h
  | some r =>
    simp only [clientThenWait] at h
    cases hcs : clientStep st r with
    | ok stm =>
      rw [hcs] at h
      obtain ⟨d1, hd1, hc1⟩ := clientStep_ok_log st r stm hcs
      obtain ⟨d2, hd2, hg2⟩ := waitStep_done stm w st' h
      exact ⟨d1 ++ d2, by rw [hd2, hd1, List.append_assoc],
        GoodTail_clean_append hc1 hg2⟩
    | error e => rw [hcs] at h; simp at h

theorem clientThenWait_crashed (st : SessionState) (c : Option ClientRead) (w : WaitRes)
    (e : PyExc) (st' : SessionState) (h : clientThenWait st c w = .crashed e st') :
    st' = st := by
  cases c with
  | none => exact absurd h (fun hh => waitStep_not_crashed st w e st' hh)
  | some r =>
    simp only [clientThenWait] at h
    cases hcs : clientStep st r with
    | ok stm =>
      rw [hcs] at h
      exact absurd h (fun hh => waitStep_not_crashed stm w e st' hh)
    | error e2 =>
      rw [hcs] at h
      simp only [StepRes.crashed.injEq] at h
      exact h.2.symm

theorem loopIter_next (pats : List Pat) (st : SessionState) (i : IterIn)
    (st' : SessionState) (h : loopIter pats st i = .next st') :
    ∃ d, st'.log = st.log ++ d ∧ CleanActs d := by
  cases i with
  | selectErr => simp [loopIter] at h
  | ok iv =>
    obtain ⟨d0, hd0, hc0⟩ := inactivityCheck_log st iv.now
    rcases hp : iv.pty with _ | data
    · simp only [loopIter, hp] at h
      obtain ⟨d1, hd1, hc1⟩ := clientThenWait_next _ iv.client iv.wait st' h
      exact ⟨d0 ++ d1, by rw [hd1, hd0, List.append_assoc], CleanActs_append hc0 hc1⟩
    · by_cases hdat : data = []

      · simp only [loopIter, hp, hdat, if_pos rfl] at h
        simp at h
      · simp only [loopIter, hp, if_neg hdat] at h
        obtain ⟨d1, hd1, hc1⟩ :=
          ptyData_log pats (inactivityCheck st iv.now) data iv.now
        obtain ⟨d2, hd2, hc2⟩ := clientThenWait_next _ iv.client iv.wait st' h
        refine ⟨d0 ++ (d1 ++ d2), ?_, CleanActs_append hc0 (CleanActs_append hc1 hc2)⟩
        rw [hd2, hd1, hd0]
        simp [List.append_assoc]

theorem loopIter_done (pats : List Pat) (st : SessionState) (i : IterIn)
    (st' : SessionState) (h : loopIter pats st i = .done st') :
    ∃ d, st'.log = st.log ++ d ∧ GoodTail d := by
  cases i with
  | selectErr =>
    simp only [loopIter, StepRes.done.injEq] at h
    rw [← h]
    exact ⟨[], by simp, GoodTail_nil⟩
  | ok iv =>
    obtain ⟨d0, hd0, hc0⟩ := inactivityCheck_log st iv.now
    rcases hp : iv.pty with _ | data
    · simp only [loopIter, hp] at h
      obtain ⟨d1, hd1, hg1⟩ := clientThenWait_done _ iv.client iv.wait st' h
      exact ⟨d0 ++ d1, by rw [hd1, hd0, List.append_assoc],
        GoodTail_clean_append hc0 hg1⟩
    · by_cases hdat : data = []
      · simp only [loopIter, hp, hdat, if_pos rfl, if_true, StepRes.done.injEq] at h
        rw [← h]
        refine ⟨d0 ++ [Action.closedMaster, Action.closedClient], ?_, ?_⟩
        · simp only [finish]
          rw [hd0]
          simp [List.append_assoc]
        · exact GoodTail_clean_append hc0 GoodTail_pair
      · simp only [loopIter, hp, if_neg hdat] at h
        obtain ⟨d1, hd1, hc1⟩ :=
          ptyData_log pats (inactivityCheck st iv.now) data iv.now
        obtain ⟨d2, hd2, hg2⟩ := clientThenWait_done _ iv.client iv.wait st' h
        refine ⟨d0 ++ (d1 ++ d2), ?_,
          GoodTail_clean_append hc0 (GoodTail_clean_append hc1 hg2)⟩
        rw [hd2, hd1, hd0]
        simp [List.append_assoc]

theorem loopIter_crashed (pats : List Pat) (st : SessionState) (i : IterIn)
    (e : PyExc) (st' : SessionState) (h : loopIter pats st i = .crashed e st') :
    ∃ d, st'.log = st.log ++ d ∧ CleanActs d := by
  cases i with
  | selectErr => simp [loopIter] at h
  | ok iv =>
    obtain ⟨d0, hd0, hc0⟩ := inactivityCheck_log st iv.now
    rcases hp : iv.pty with _ | data
    · simp only [loopIter, hp] at h
      rw [clientThenWait_crashed _ iv.client iv.wait e st' h, hd0]
      exact ⟨d0, rfl, hc0⟩
    · by_cases hdat : data = []
      · simp only [loopIter, hp, hdat, if_pos rfl] at h
        simp at h
      · simp only [loopIter, hp, if_neg hdat] at h
        obtain ⟨d1, hd1, hc1⟩ :=
          ptyData_log pats (inactivityCheck st iv.now) data iv.now
        rw [clientThenWait_crashed _ iv.client iv.wait e st' h, hd1, hd0]
        exact ⟨d0 ++ d1, by simp [List.append_assoc], CleanActs_append hc0 hc1⟩

/-- The invariant of a full run: frames other than a final one are never exit
frames, and the close actions are absent or exactly the master-then-client
pair. -/
theorem runLoop_frames_closes (pats : List Pat) :
    ∀ (trace : List IterIn) (st : SessionState),
      (∀ f ∈ framesOf st.log, isExitFrame f = false) →
      closesOf st.log = [] →
      (∀ f ∈ (framesOf (runLoop pats st trace).2.log).dropLast, isExitFrame f = false) ∧
        (closesOf (runLoop pats st trace).2.log = [] ∨
          closesOf (runLoop pats st trace).2.log =
            [Action.closedMaster, Action.closedClient]) := by
  intro trace
  induction trace with
  | nil =>
    intro st h1 h2
    exact ⟨fun f hf => h1 f ((List.dropLast_sublist _).subset hf), Or.inl h2⟩
  | cons i rest ih =>
    intro st h1 h2
    simp only [runLoop]
    by_cases hr : st.running
    · rw [if_pos hr]
      cases hli : loopIter pats st i with
      | next st' =>
        obtain ⟨d, hd, hcl⟩ := loopIter_next pats st i st' hli
        apply ih st'
        · intro f hf
          rw [hd, framesOf_append] at hf
          rcases List.mem_append.mp hf with hm | hm
          · exact h1 f hm
          · exact hcl.1 f hm
        · rw [hd, closesOf_append, h2, hcl.2]
          rfl
      | done st' =>
        obtain ⟨d, hd, hgt⟩ := loopIter_done pats st i st' hli
        constructor
        · intro f hf
          rw [hd, framesOf_append] at hf
          rcases mem_dropLast_append (framesOf st.log) (framesOf d) hf with hm | hm
          · exact h1 f hm
          · exact hgt.1 f hm
        · rw [hd, closesOf_append, h2]
          simpa using hgt.2
      | crashed e st' =>
        obtain ⟨d, hd, hcl⟩ := loopIter_crashed pats st i e st' hli
        constructor
        · intro f hf
          rw [hd, framesOf_append] at hf
          rcases mem_dropLast_append (framesOf st.log) (framesOf d) hf with hm | hm
          · exact h1 f hm
          · exact hcl.1 f ((List.dropLast_sublist _).subset hm)
        · rw [hd, closesOf_append, h2, hcl.2]
          exact Or.inl rfl
    · rw [if_neg hr]
      exact ⟨fun f hf => h1 f ((List.dropLast_sublist _).subset hf), Or.inl h2⟩

end Session

open Session in
/-- Claim C1, amended part (corrected): over every environment trace of a
session started fresh, every frame other than possibly the final one is not
an `exit` frame — so at most one `exit` frame is ever sent, and when one is
sent it is the last frame on the client socket.  A zero-byte PTY read runs
`_finish` (after the watchdog check) and returns immediately, and `_finish`
itself sends no frame at all: the EOF teardown does not send an `exit`
frame — only the child-reap path (`_handle_exit`) does. -/
theorem claim_C1 :
    (∀ (pats : List Pat) (cmd : Str) (tmo : Option Int) (t0 : ℚ) (fates : List Bool)
        (trace : List IterIn),
        ∀ f ∈ (framesOf (runLoop pats (initSession cmd tmo t0 fates) trace).2.log).dropLast,
          isExitFrame f = false) ∧
    (∀ (pats : List Pat) (st : SessionState) (now : ℚ) (c : Option ClientRead)
        (w : WaitRes),
        loopIter pats st (.ok ⟨now, some [], c, w⟩) =
          .done (finish (inactivityCheck st now))) ∧
    (∀ st : SessionState, framesOf (finish st).log = framesOf st.log ∧
        (finish st).log = st.log ++ [Action.closedMaster, Action.closedClient]) := by
  refine ⟨?_, ?_, ?_⟩
  · intro pats cmd tmo t0 fates trace
    exact (runLoop_frames_closes pats trace (initSession cmd tmo t0 fates)
      (by intro f hf; simp [initSession] at hf) (by simp [initSession])).1
  · intro pats st now c w
    rfl
  · intro st
    constructor
    · simp [finish, framesOf_append]
    · rfl

/-- The environment trace of the C1 counterexample: one iteration in which
the PTY master read returns zero bytes. -/
def c1trace : List Session.IterIn := [.ok ⟨0, some [], none, .alive⟩]

open Session in
/-- Counterexample for claim C1 (corrected): on a zero-byte PTY read the
session tears down (the loop returns and the log ends with the two closes)
but the client receives no `exit` frame — in fact no frame at all is sent on
this path, refuting both "the client receives an `exit` frame" and "every
Session that terminates sends exactly one `exit` frame". -/
theorem claim_C1_counterexample :
    (runLoop defaultPats (initSession "cmd".data none 0 []) c1trace).1 =
      LoopEnd.returned ∧
      (runLoop defaultPats (initSession "cmd".data none 0 []) c1trace).2.log =
        [Action.closedMaster, Action.closedClient] ∧
      framesOf (runLoop defaultPats (initSession "cmd".data none 0 []) c1trace).2.log =
        [] :=
  ⟨rfl, rfl, rfl⟩

open Session in
/-- Claim C2, amended part (corrected): over every environment trace of a
session started fresh, the close actions are either absent or exactly the
PTY-master close followed by the client-socket close (the `_finish` path, in
that order, each performed once).  But `running` can turn false without any
close: when the client closes its socket mid-run, the loop merely sets
`running = False` and the iteration ends, so the session leaves both the PTY
master and the client socket open — `_finish` is never called on that path. -/
theorem claim_C2 :
    (∀ (pats : List Pat) (cmd : Str) (tmo : Option Int) (t0 : ℚ) (fates : List Bool)
        (trace : List IterIn),
        closesOf (runLoop pats (initSession cmd tmo t0 fates) trace).2.log = [] ∨
          closesOf (runLoop pats (initSession cmd tmo t0 fates) trace).2.log =
            [Action.closedMaster, Action.closedClient]) ∧
    (∀ (pats : List Pat) (st : SessionState) (now : ℚ),
        st.inactivityTimeout = none →
        loopIter pats st (.ok ⟨now, none, some .closed, .alive⟩) =
          .next { st with running := false }) := by
  constructor
  · intro pats cmd tmo t0 fates trace
    exact (runLoop_frames_closes pats trace (initSession cmd tmo t0 fates)
      (by intro f hf; simp [initSession] at hf) (by simp [initSession])).2
  · intro pats st now h
    simp [loopIter, inactivityCheck, h, clientThenWait, clientStep, waitStep]

/-- The environment trace of the C2 counterexample: the client closes its
socket, then one more iteration elapses. -/
def c2trace : List Session.IterIn :=
  [.ok ⟨0, none, some .closed, .alive⟩, .ok ⟨1, none, none, .alive⟩]

open Session in
/-- Counterexample for claim C2 (corrected): after the client closes its
socket mid-run, `running` transitions from true to false but the loop exits
with an empty action log — the PTY master is never closed (and neither is the
client socket), refuting "whenever `running` transitions from true to false
the PTY master is closed and then the client socket is closed" and "when the
client closes its socket mid-run the Session closes the PTY master". -/
theorem claim_C2_counterexample :
    (runLoop defaultPats (initSession "cmd".data none 0 []) c2trace).1 =
      LoopEnd.whileExit ∧
      (runLoop defaultPats (initSession "cmd".data none 0 []) c2trace).2.running =
        false ∧
      (runLoop defaultPats (initSession "cmd".data none 0 []) c2trace).2.log = [] :=
  ⟨rfl, rfl, rfl⟩

open Session in
/-- Witness for the amended C2 at concrete inputs: the empty trace from a
fresh session, and the client-close step from a fresh session. -/
theorem claim_C2_witness :
    (closesOf (runLoop defaultPats (initSession "c".data none 0 []) []).2.log = [] ∨
      closesOf (runLoop defaultPats (initSession "c".data none 0 []) []).2.log =
        [Action.closedMaster, Action.closedClient]) ∧
    loopIter defaultPats (initSession "c".data none 0 [])
        (.ok ⟨0, none, some .closed, .alive⟩) =
      .next { initSession "c".data none 0 [] with running := false } :=
  ⟨claim_C2.1 defaultPats "c".data none 0 [] [],
   claim_C2.2 defaultPats (initSession "c".data none 0 []) 0 rfl⟩

open Session in
/-- Claim C5 (confirmed): `_handle_exit` computes the exit code as
`WEXITSTATUS` for a normal exit, `128 + WTERMSIG` for a signalled exit and
`1` otherwise; it emits an `exit_code` event to the notifier iff the code is
nonzero, then sends the `exit` frame carrying the decimal code, then closes
the master and the client (teardown) — in that order.  The hypothesis states
that the socket sends succeed. -/
theorem claim_C5 (st : SessionState) (status : Nat) (h : st.sendFates = []) :
    handleExit st status =
      { st with
        running := false,
        log := st.log ++
          ((if computeExitCode status ≠ 0
            then [Action.notifyCall (exitCodeEvent st.commandStr (computeExitCode status))]
            else []) ++
           [Action.sentFrame (Frame.exit (Nat.repr (computeExitCode status)).data),
            Action.closedMaster, Action.closedClient]) } ∧
    (WIFEXITED status = true → computeExitCode status = WEXITSTATUS status) ∧
    (WIFEXITED status = false → WIFSIGNALED status = true →
      computeExitCode status = 128 + WTERMSIG status) ∧
    (WIFEXITED status = false → WIFSIGNALED status = false →
      computeExitCode status = 1) := by
  refine ⟨?_, ?_, ?_, ?_⟩
  · by_cases hcode : computeExitCode status ≠ 0 <;>
      simp [handleExit, hcode, sendToClient, finish, h, List.append_assoc]
  · intro h1
    simp [computeExitCode, h1]
  · intro h1 h2
    simp [computeExitCode, h1, h2]
  · intro h1 h2
    simp [computeExitCode, h1, h2]

/-- The concrete session state of the C5 witness. -/
def c5st : Session.SessionState := Session.initSession "c".data none 0 []

open Session in
/-- Witness for C5 at the concrete wait status 256 (= normal exit with code
1) from a fresh session state. -/
theorem claim_C5_witness :
    handleExit c5st 256 =
      { c5st with
        running := false,
        log := c5st.log ++
          ((if computeExitCode 256 ≠ 0
            then [Action.notifyCall (exitCodeEvent c5st.commandStr (computeExitCode 256))]
            else []) ++
           [Action.sentFrame (Frame.exit (Nat.repr (computeExitCode 256)).data),
            Action.closedMaster, Action.closedClient]) } ∧
    (WIFEXITED 256 = true → computeExitCode 256 = WEXITSTATUS 256) ∧
    (WIFEXITED 256 = false → WIFSIGNALED 256 = true →
      computeExitCode 256 = 128 + WTERMSIG 256) ∧
    (WIFEXITED 256 = false → WIFSIGNALED 256 = false →
      computeExitCode 256 = 1) :=
  claim_C5 c5st 256 rfl

namespace Session

/-- Is a chunk action a recognised control frame? -/
def isFrameAct : ChunkAct → Bool
  | .doResize _ _ => true
  | .doInput _ => true
  | _ => false

/-- Is a chunk action a verbatim forward to the PTY? -/
def isRawAct : ChunkAct → Bool
  | .rawWrite _ => true
  | _ => false

/-- Is a chunk action an uncaught exception? -/
def isCrashAct : ChunkAct → Bool
  | .raiseExc _ => true
  | _ => false

/-- Spec predicate, from the amended claim C4: a chunk is a control frame iff
it decodes as UTF-8 and its stripped text parses as a JSON object whose
`type` is the string `resize`, or the string `input` with a string `data`
field present. -/
def frameSpec : ChunkView → Bool
  | .undecodable _ => false
  | .decoded _ _ p =>
    match p with
    | some (.obj fields) =>
      match jlookup fields "type".data with
      | some (.str t) =>
        if t = "resize".data then true
        else if t = "input".data then
          match jlookup fields "data".data with
          | some (.str _) => true
          | _ => false
        else false
      | _ => false
    | _ => false

/-- Spec predicate, from the amended claim C4: a chunk is forwarded verbatim
iff it decodes but fails to parse as JSON, or parses to an object whose
`type` is missing, not a string, or an unrecognised string, or is an `input`
object missing its `data` field. -/
def forwardSpec : ChunkView → Bool
  | .undecodable _ => false
  | .decoded _ _ p =>
    match p with
    | none => true
    | some (.obj fields) =>
      match jlookup fields "type".data with
      | some (.str t) =>
        if t = "resize".data then false
        else if t = "input".data then
          match jlookup fields "data".data with
          | none => true
          | some _ => false
        else true
      | _ => true
    | some _ => false

/-- Spec predicate, from the amended claim C4: a chunk raises an uncaught
exception iff it is not valid UTF-8, or parses to a non-object JSON value, or
is an `input` object whose `data` value is not a string. -/
def crashSpec : ChunkView → Bool
  | .undecodable _ => true
  | .decoded _ _ p =>
    match p with
    | none => false
    | some (.obj fields) =>
      match jlookup fields "type".data with
      | some (.str t) =>
        if t = "resize".data then false
        else if t = "input".data then
          match jlookup fields "data".data with
          | some (.str _) => false
          | some _ => true
          | none => false
        else false
      | _ => false
    | some _ => true

end Session

open Session in
/-- Claim C4, amended part (corrected): a client chunk is interpreted as a
control frame iff it decodes as UTF-8 and its stripped text parses as a JSON
object whose `type` is `resize`, or `input` with a string `data` field; it is
forwarded verbatim (the original bytes) iff it decodes but is malformed JSON,
or an object with a missing/unknown/non-string `type`, or an `input` object
missing `data`; and it raises an uncaught exception — instead of being
forwarded — iff it is not UTF-8, or non-object JSON, or an `input` object
with a non-string `data`. -/
theorem claim_C4 :
    (∀ v : ChunkView,
        isFrameAct (classifyChunk v) = frameSpec v ∧
          isRawAct (classifyChunk v) = forwardSpec v ∧
          isCrashAct (classifyChunk v) = crashSpec v) ∧
    (∀ (raw : List Nat) (s : Str),
        classifyChunk (.decoded raw s none) = .rawWrite raw) := by
  constructor
  · intro v
    rcases v with raw | ⟨raw, s, p⟩
    · exact ⟨rfl, rfl, rfl⟩
    · rcases p with _ | j
      · exact ⟨rfl, rfl, rfl⟩
      · cases j with
        | null => exact ⟨rfl, rfl, rfl⟩
        | bool b => exact ⟨rfl, rfl, rfl⟩
        | int n => exact ⟨rfl, rfl, rfl⟩
        | float => exact ⟨rfl, rfl, rfl⟩
        | str s2 => exact ⟨rfl, rfl, rfl⟩
        | arr xs => exact ⟨rfl, rfl, rfl⟩
        | obj fields =>
          cases hl : jlookup fields "type".data with
          | none =>
            simp [classifyChunk, frameSpec, forwardSpec, crashSpec, hl,
              isFrameAct, isRawAct, isCrashAct]
          | some jv =>
            cases jv with
            | str t =>
              by_cases hres : t = "resize".data
              · simp [classifyChunk, frameSpec, forwardSpec, crashSpec, hl, hres,
                  isFrameAct, isRawAct, isCrashAct]
              · by_cases hinp : t = "input".data
                · cases hd : jlookup fields "data".data with
                  | none =>
                    simp [classifyChunk, frameSpec, forwardSpec, crashSpec, hl,
                      hres, hinp, hd, isFrameAct, isRawAct, isCrashAct]
                  | some jd =>
                    cases jd <;>
                      simp [classifyChunk, frameSpec, forwardSpec, crashSpec, hl,
                        hres, hinp, hd, isFrameAct, isRawAct, isCrashAct]
                · simp [classifyChunk, frameSpec, forwardSpec, crashSpec, hl,
                    hres, hinp, isFrameAct, isRawAct, isCrashAct]
            | null =>
              simp [classifyChunk, frameSpec, forwardSpec, crashSpec, hl,
                isFrameAct, isRawAct, isCrashAct]
            | bool b =>
              simp [classifyChunk, frameSpec, forwardSpec, crashSpec, hl,
                isFrameAct, isRawAct, isCrashAct]
            | int n =>
              simp [classifyChunk, frameSpec, forwardSpec, crashSpec, hl,
                isFrameAct, isRawAct, isCrashAct]
            | float =>
              simp [classifyChunk, frameSpec, forwardSpec, crashSpec, hl,
                isFrameAct, isRawAct, isCrashAct]
            | arr xs =>
              simp [classifyChunk, frameSpec, forwardSpec, crashSpec, hl,
                isFrameAct, isRawAct, isCrashAct]
            | obj f2 =>
              simp [classifyChunk, frameSpec, forwardSpec, crashSpec, hl,
                isFrameAct, isRawAct, isCrashAct]
  · intro raw s
    rfl

/-- The chunk of the C4 counterexample: the bytes of the text `3`, which
decode fine and parse as the JSON number 3 (not an object). -/
def c4view : Session.ChunkView :=
  .decoded ("3".data.map Char.toNat) "3".data (some (.int 3))

/-- The concrete session state used by the C4 and C10 counterexamples. -/
def c4st : Session.SessionState := Session.initSession "cmd".data none 0 []

open Session in
/-- Counterexample for claim C4 (corrected): the chunk `3` parses as
non-object JSON, so the claim says it is forwarded verbatim to the PTY; the
code instead calls `.get` on an `int`, raising an uncaught `AttributeError`
that crashes the loop iteration. -/
theorem claim_C4_counterexample :
    classifyChunk c4view = .raiseExc .attributeError ∧
      classifyChunk c4view ≠ .rawWrite ("3".data.map Char.toNat) ∧
      loopIter defaultPats c4st (.ok ⟨0, none, some (.chunk c4view), .alive⟩) =
        .crashed .attributeError c4st := by
  refine ⟨rfl, ?_, rfl⟩
  rw [show classifyChunk c4view = .raiseExc .attributeError from rfl]
  simp

/-- The resize frame of claim C10, with a string `rows` value: the bytes of
`{"type": "resize", "rows": "a"}` (written with escaped braces), their
decoding, and the parsed JSON object. -/
def c10text : Str := "\x7b\"type\": \"resize\", \"rows\": \"a\"\x7d".data

/-- The raw bytes of the C10 chunk (its UTF-8 encoding; the text is ASCII). -/
def c10raw : List Nat := c10text.map Char.toNat

/-- The C10 chunk view. -/
def c10chunk : Session.ChunkView :=
  .decoded c10raw c10text
    (some (.obj [("type".data, .str "resize".data), ("rows".data, .str "a".data)]))

open Session in
/-- Claim C10 (confirmed): a chunk that parses as a JSON object with `type =
resize` and a `rows` value that is not an integer representable in 16 bits (a
string here) makes `_resize` raise `struct.error` out of `struct.pack`; no
handler on the path catches it, so the loop terminates by the uncaught
exception without any teardown: the state is unchanged — `running` stays
true, no close action is logged. -/
theorem claim_C10 (pats : List Pat) (st : SessionState) (now : ℚ) (w : WaitRes)
    (rest : List IterIn) (h1 : st.inactivityTimeout = none)
    (h2 : st.running = true) :
    loopIter pats st (.ok ⟨now, none, some (.chunk c10chunk), w⟩) =
      .crashed .structError st ∧
      runLoop pats st (.ok ⟨now, none, some (.chunk c10chunk), w⟩ :: rest) =
        (.crashed .structError, st) := by
  have hic : inactivityCheck st now = st := by simp [inactivityCheck, h1]
  have hcs : clientStep st (.chunk c10chunk) = .error .structError := rfl
  have hfirst : loopIter pats st (.ok ⟨now, none, some (.chunk c10chunk), w⟩) =
      .crashed .structError st := by
    simp [loopIter, clientThenWait, hic, hcs]
  refine ⟨hfirst, ?_⟩
  simp [runLoop, h2, hfirst]

open Session in
/-- Witness for C10 at a concrete state: a fresh session receiving the bad
resize frame crashes with `struct.error`, leaving the state untouched. -/
theorem claim_C10_witness :
    loopIter defaultPats c4st (.ok ⟨0, none, some (.chunk c10chunk), .alive⟩) =
      .crashed .structError c4st ∧
      runLoop defaultPats c4st (.ok ⟨0, none, some (.chunk c10chunk), .alive⟩ :: []) =
        (.crashed .structError, c4st) :=
  claim_C10 defaultPats c4st 0 .alive [] rfl rfl

end Watchd
